import Mathlib

/-!
Shallow embedding of the computational core of the Dark Web Monitoring
Dashboard (src/Dark_web_monitoring_dashboard.py): the column normalizer
`clean_column_names`, the upload processor `process_uploaded_files`, and
the aggregation performed by the `update_dashboard` callback.

Tables are modelled row-major: a list of column headers plus a list of
rows, each row a list of cells.  A cell is either a missing value (NaN),
a string, or an already-parsed calendar date (a datetime value).
-/

/-- Calendar date, compared lexicographically on (year, month, day) —
the same order as chronological comparison of datetimes. -/
structure Date3 where
  year : Nat
  month : Nat
  day : Nat
deriving DecidableEq

/-- Chronological (lexicographic) less-or-equal on dates. -/
def dateLe (a b : Date3) : Bool :=
  decide (a.year < b.year ∨ (a.year = b.year ∧ (a.month < b.month ∨
    (a.month = b.month ∧ a.day ≤ b.day))))

/-- Chronological (lexicographic) strictly-less on dates. -/
def dateLt (a b : Date3) : Bool :=
  decide (a.year < b.year ∨ (a.year = b.year ∧ (a.month < b.month ∨
    (a.month = b.month ∧ a.day < b.day))))

/-- One spreadsheet cell: missing (NaN/NaT), a string, or a datetime. -/
inductive Cell where
  | null : Cell
  | str : String → Cell
  | date : Date3 → Cell
deriving DecidableEq

/-- A dataframe: named columns over a list of rows (row-major). -/
structure Table where
  headers : List String
  rows : List (List Cell)
deriving DecidableEq

/-- ASCII lowercasing of one character, as Python's `str.lower` acts on
the ASCII range (the only range occurring in column names here). -/
def charLower (c : Char) : Char :=
  match c with
  | 'A' => 'a' | 'B' => 'b' | 'C' => 'c' | 'D' => 'd' | 'E' => 'e'
  | 'F' => 'f' | 'G' => 'g' | 'H' => 'h' | 'I' => 'i' | 'J' => 'j'
  | 'K' => 'k' | 'L' => 'l' | 'M' => 'm' | 'N' => 'n' | 'O' => 'o'
  | 'P' => 'p' | 'Q' => 'q' | 'R' => 'r' | 'S' => 's' | 'T' => 't'
  | 'U' => 'u' | 'V' => 'v' | 'W' => 'w' | 'X' => 'x' | 'Y' => 'y'
  | 'Z' => 'z'
  | c => c

/-- Python's `str.lower` (ASCII model): lowercase every character. -/
def pyLower (s : String) : String :=
  ⟨s.data.map charLower⟩

/-- Drop leading whitespace characters. -/
def dropSpaces : List Char → List Char
  | [] => []
  | c :: t => if c.isWhitespace then dropSpaces t else c :: t

/-- Python's `str.strip` with no argument: remove leading and trailing
whitespace. -/
def pyStrip (s : String) : String :=
  ⟨dropSpaces ((dropSpaces s.data.reverse).reverse)⟩

/-- The header fold `col.strip().lower()` applied to every column name
at line 24 of the source: strip surrounding whitespace, then lowercase. -/
def foldName (s : String) : String :=
  pyLower (pyStrip s)

/-- The fixed rename map `column_mapping` (source lines 25-32): the six
lowercase keys map to canonical names, any other name is left as-is
(pandas `rename` ignores non-matching columns). -/
def column_mapping (s : String) : String :=
  if s = "keyword" then "Keyword"
  else if s = "link" then "URL"
  else if s = "findings" then "Findings"
  else if s = "link response" then "Link Response"
  else if s = "time" then "Time"
  else if s = "date" then "Date"
  else s

/-- The function `clean_column_names` (source lines 22-34): fold every
header, then apply the rename map.  Rows are untouched. -/
def clean_column_names (t : Table) : Table :=
  ⟨t.headers.map (fun h => column_mapping (foldName h)), t.rows⟩

/-- The constant `REQUIRED_COLUMNS` (source line 15). -/
def REQUIRED_COLUMNS : List String :=
  ["Keyword", "URL", "Findings", "Link Response", "Time", "Date"]

/-- Index of the first column with the given name (pandas label lookup
selects this column's cells for a uniquely-named label). -/
def colIdx (name : String) : List String → Nat
  | [] => 0
  | h :: t => if h = name then 0 else colIdx name t + 1

/-- Cell of row `r` in the column labelled `name` of a table with the
given headers (missing positions read as NaN). -/
def cellAt (headers : List String) (r : List Cell) (name : String) : Cell :=
  r.getD (colIdx name headers) Cell.null

/-- The per-file acceptance step of `process_uploaded_files` (source
lines 48-52): clean the column names, then accept the fragment iff all
of `REQUIRED_COLUMNS` are present, projecting it (`df[REQUIRED_COLUMNS]`)
to exactly those six columns in that order, preserving row order;
otherwise reject the whole fragment. -/
def processFragment (t : Table) : Option Table :=
  if REQUIRED_COLUMNS.all (fun c => (clean_column_names t).headers.contains c) then
    some ⟨REQUIRED_COLUMNS,
      (clean_column_names t).rows.map
        (fun r => REQUIRED_COLUMNS.map (fun c => cellAt (clean_column_names t).headers r c))⟩
  else
    none

/-- One uploaded payload, modelled by its spreadsheet-parse outcome:
`some t` when `pd.read_excel` yields the raw table `t`, `none` when the
bytes cannot be parsed as a spreadsheet (`read_excel` raises; the
surrounding `try` at source lines 44-54 catches it per file). -/
abbrev Content : Type := Option Table

/-- The function `process_uploaded_files` (source lines 37-59): per
payload, a parse failure is caught and skipped, an accepted fragment is
collected; accepted fragments are concatenated in order (`pd.concat`,
which keeps the common column set of the fragments), and if none were
accepted an empty table with the six required columns is returned. -/
def process_uploaded_files (contents : List Content) : Table :=
  match contents.filterMap (fun c => c.bind processFragment) with
  | [] => ⟨REQUIRED_COLUMNS, []⟩
  | t :: ts => ⟨t.headers, ((t :: ts).map Table.rows).flatten⟩

/-- Split a character list at the character `-`. -/
def splitDash : List Char → List (List Char)
  | [] => [[]]
  | c :: t =>
    match splitDash t with
    | [] => [[c]]
    | h :: r => if c = '-' then [] :: h :: r else (c :: h) :: r

/-- Numeric value of a nonempty all-digit character list. -/
def digitsToNat (l : List Char) : Option Nat :=
  if l ≠ [] ∧ l.all Char.isDigit then
    some (l.foldl (fun n c => 10 * n + (c.toNat - 48)) 0)
  else
    none

/-- Number of days in a month of the Gregorian calendar. -/
def daysInMonth (y m : Nat) : Nat :=
  if m = 2 then
    if y % 4 = 0 ∧ (y % 100 ≠ 0 ∨ y % 400 = 0) then 29 else 28
  else if m = 4 ∨ m = 6 ∨ m = 9 ∨ m = 11 then 30
  else 31

/-- Date parsing as performed by the external `pd.to_datetime`,
modelled on ISO `YYYY-MM-DD` strings (the format the date picker and
the monitored exports use): three dash-separated digit groups forming a
valid calendar date; anything else fails to parse. -/
def parseDate (s : String) : Option Date3 :=
  match splitDash s.data with
  | [ys, ms, ds] =>
    match digitsToNat ys, digitsToNat ms, digitsToNat ds with
    | some y, some m, some d =>
      if 1 ≤ m ∧ m ≤ 12 ∧ 1 ≤ d ∧ d ≤ daysInMonth y m then
        some ⟨y, m, d⟩
      else none
    | _, _, _ => none
  | _ => none

/-- Conversion of one cell by `pd.to_datetime` with the default
`errors="raise"`: a datetime passes through, a missing value becomes
NaT (no error), and a string must parse as a date or the conversion
raises for the whole column. -/
def parseCellDate : Cell → Except String Cell
  | Cell.date d => Except.ok (Cell.date d)
  | Cell.null => Except.ok Cell.null
  | Cell.str s =>
    match parseDate s with
    | some d => Except.ok (Cell.date d)
    | none => Except.error ("Unknown datetime string format: " ++ s)

/-- Effectful map over a list that stops at the first error, as a
column-wise `pd.to_datetime` does. -/
def mapE (f : α → Except ε β) : List α → Except ε (List β)
  | [] => Except.ok []
  | a :: t =>
    match f a with
    | Except.error e => Except.error e
    | Except.ok b =>
      match mapE f t with
      | Except.error e => Except.error e
      | Except.ok bs => Except.ok (b :: bs)

/-- Conversion of one row for `pd.to_datetime` on the column at index
`i`: parse that cell, keep the rest of the row. -/
def convertRowDate (i : Nat) (r : List Cell) : Except String (List Cell) :=
  match parseCellDate (r.getD i Cell.null) with
  | Except.error e => Except.error e
  | Except.ok c => Except.ok (r.set i c)

/-- The statement `data["Date"] = pd.to_datetime(data["Date"])` (source
line 194): replace every cell of the `Date` column by its parsed
datetime, raising on the first unparseable string. -/
def toDatetimeTable (t : Table) : Except String Table :=
  match mapE (convertRowDate (colIdx "Date" t.headers)) t.rows with
  | Except.error e => Except.error e
  | Except.ok rs => Except.ok ⟨t.headers, rs⟩

/-- The row predicate of source line 197:
`(data["Date"] >= start) & (data["Date"] <= end)`.  Comparisons against
NaT or a non-datetime value are false, so such rows are dropped. -/
def inRange (s e : Date3) (c : Cell) : Bool :=
  match c with
  | Cell.date d => dateLe s d && dateLe d e
  | _ => false

/-- The date-range filter of source line 197 applied to a table. -/
def filterRange (s e : Date3) (t : Table) : Table :=
  ⟨t.headers, t.rows.filter (fun r => inRange s e (cellAt t.headers r "Date"))⟩

/-- Column extraction `data[name]`: cells of the named column. -/
def getColVals (t : Table) (name : String) : List Cell :=
  t.rows.map (fun r => cellAt t.headers r name)

/-- Check that the pattern list starts the other list. -/
def startsWithList : List Char → List Char → Bool
  | [], _ => true
  | _ :: _, [] => false
  | a :: as, b :: bs => a = b && startsWithList as bs

/-- Substring test on character lists: the pattern occurs contiguously. -/
def hasSubstr (p : List Char) : List Char → Bool
  | [] => p.isEmpty
  | c :: t => startsWithList p (c :: t) || hasSubstr p t

/-- The predicate of source line 209:
`Findings.str.contains("Keyword found", case=False, na=False)` — a
case-insensitive substring test on string cells; missing or non-string
values give `False` (the `na=False` default for non-strings). -/
def findingsMatch (c : Cell) : Bool :=
  match c with
  | Cell.str s => hasSubstr (pyLower "Keyword found").data (pyLower s).data
  | _ => false

/-- First-seen deduplication, accumulating the values already seen. -/
def uniqueAux [DecidableEq α] : List α → List α → List α
  | [], _ => []
  | a :: t, seen =>
    if a ∈ seen then uniqueAux t seen else a :: uniqueAux t (a :: seen)

/-- Distinct values of a list in first-seen order, as pandas
`Series.unique` produces (NaN included as a value). -/
def uniqueFirstSeen [DecidableEq α] (l : List α) : List α :=
  uniqueAux l []

/-- Insert into a list sorted by `le`, keeping earlier equal elements
first. -/
def insSorted (le : α → α → Bool) (a : α) : List α → List α
  | [] => [a]
  | b :: t => if le a b then a :: b :: t else b :: insSorted le a t

/-- Insertion sort by the boolean relation `le`. -/
def sortBy (le : α → α → Bool) (l : List α) : List α :=
  l.foldr (insSorted le) []

/-- Ordering on grouping keys: NaN first, strings lexicographically,
datetimes chronologically (mixed kinds ordered by kind). -/
def charListLe : List Char → List Char → Bool
  | [], _ => true
  | _ :: _, [] => false
  | a :: as, b :: bs => if a = b then charListLe as bs else decide (a < b)

/-- Key order used when grouping by a column. -/
def cellLe (a b : Cell) : Bool :=
  match a, b with
  | Cell.null, _ => true
  | _, Cell.null => false
  | Cell.str x, Cell.str y => charListLe x.data y.data
  | Cell.str _, Cell.date _ => true
  | Cell.date _, Cell.str _ => false
  | Cell.date x, Cell.date y => dateLe x y

/-- The aggregated dashboard outputs (source lines 199-248): the four
counters, the three chart series, and the table payload.  The callback
wraps the counters in label strings before returning them; the labels
are presentation and carry no further data. -/
structure Metrics where
  total_findings : Nat
  unique_keywords : Nat
  monitored_urls : Nat
  found_keyword_count : Nat
  findings_over_time : List (Date3 × Nat)
  keyword_frequency : List (Cell × Nat)
  keyword_success : List (Cell × Nat)
  table_data : List (List Cell)
deriving DecidableEq

/-- The aggregation of `update_dashboard` (source lines 197-248) on a
date-converted table: filter to the inclusive date range, then compute
row count, distinct `Keyword` count, distinct `URL` count, the count of
positive-match rows, the per-date row counts ordered by date ascending
(`groupby("Date").size()`), the per-keyword row counts ordered by
descending frequency (`value_counts`, which drops NaN keys), the
per-keyword counts over positive-match rows (`groupby("Keyword")`,
keys ascending, NaN keys dropped), and the filtered rows verbatim. -/
def aggregate (t : Table) (s e : Date3) : Metrics :=
  let filtered := filterRange s e t
  let kcol := getColVals filtered "Keyword"
  let ucol := getColVals filtered "URL"
  let found := filtered.rows.filter
    (fun r => findingsMatch (cellAt filtered.headers r "Findings"))
  let dates := (getColVals filtered "Date").filterMap
    (fun c => match c with | Cell.date d => some d | _ => none)
  let foundK := found.map (fun r => cellAt filtered.headers r "Keyword")
  ⟨filtered.rows.length,
   (uniqueFirstSeen kcol).length,
   (uniqueFirstSeen ucol).length,
   found.length,
   (sortBy dateLe (uniqueFirstSeen dates)).map (fun d => (d, dates.count d)),
   sortBy (fun a b => b.2 ≤ a.2)
     ((uniqueFirstSeen (kcol.filter (fun c => c ≠ Cell.null))).map
       (fun k => (k, kcol.count k))),
   (sortBy cellLe (uniqueFirstSeen (foundK.filter (fun c => c ≠ Cell.null)))).map
     (fun k => (k, foundK.count k)),
   filtered.rows⟩

/-- Outcome of the callback other than a normal result: `PreventUpdate`
when no upload has occurred (source lines 187-188), or an uncaught
pandas error escaping the callback. -/
inductive UpdateError where
  | preventUpdate : UpdateError
  | pandasError : String → UpdateError
deriving DecidableEq

/-- The callback `update_dashboard` (source lines 185-259): abort with
`PreventUpdate` when the upload contents are `None`; otherwise process
the uploads, convert the `Date` column (which can raise), filter by the
date range, and aggregate. -/
def update_dashboard (contents : Option (List Content)) (s e : Date3) :
    Except UpdateError Metrics :=
  match contents with
  | none => Except.error UpdateError.preventUpdate
  | some cs =>
    let data := process_uploaded_files cs
    match toDatetimeTable data with
    | Except.error m => Except.error (UpdateError.pandasError m)
    | Except.ok data2 => Except.ok (aggregate data2 s e)

/-- Example raw fragment with the messy header `" Link "`, two rows. -/
def exRawGood : Table :=
  ⟨["Keyword", " Link ", "Findings", "Link Response", "Time", "Date"],
   [[Cell.str "alpha", Cell.str "siteA", Cell.str "Keyword found: alpha",
     Cell.str "200", Cell.str "10:00", Cell.str "2021-01-01"],
    [Cell.str "beta", Cell.str "siteB", Cell.str "nothing",
     Cell.str "404", Cell.str "11:00", Cell.str "2021-02-01"]]⟩

/-- Example raw fragment whose headers are already the canonical names,
with the source column for `URL` literally named `"URL"`. -/
def exRawCanon : Table :=
  ⟨["Keyword", "URL", "Findings", "Link Response", "Time", "Date"],
   [[Cell.str "alpha", Cell.str "siteA", Cell.str "Keyword found: alpha",
     Cell.str "200", Cell.str "10:00", Cell.str "2021-01-01"]]⟩

/-- Example raw fragment whose `Date` cell cannot be parsed as a date. -/
def exRawBadDate : Table :=
  ⟨["Keyword", "Link", "Findings", "Link Response", "Time", "Date"],
   [[Cell.str "alpha", Cell.str "siteA", Cell.str "Keyword found: alpha",
     Cell.str "200", Cell.str "10:00", Cell.str "garbage"]]⟩

/-- Example canonical row whose `Date` cell is already a datetime. -/
def exConvRow : List Cell :=
  [Cell.str "alpha", Cell.str "siteA", Cell.str "Keyword found: alpha",
   Cell.str "200", Cell.str "10:00", Cell.date ⟨2021, 1, 1⟩]

/-- Example canonical one-row date-converted table. -/
def exConvTable : Table :=
  ⟨REQUIRED_COLUMNS, [exConvRow]⟩

deriving instance DecidableEq for Except

/-! Helper lemmas about the embedded operations. -/

theorem charLower_ne_U (c : Char) : charLower c ≠ 'U' := by
  unfold charLower
  split <;> simp_all

theorem pyLower_ne_URL (s : String) : pyLower s ≠ "URL" := by
  intro h
  have hd : s.data.map charLower = ['U', 'R', 'L'] := congrArg String.data h
  rcases hl : s.data with _ | ⟨c, t⟩ <;> rw [hl] at hd
  · simp at hd
  · simp only [List.map_cons, List.cons.injEq] at hd
    exact charLower_ne_U c hd.1

theorem foldName_ne_URL (s : String) : foldName s ≠ "URL" :=
  pyLower_ne_URL (pyStrip s)

theorem column_mapping_eq_URL {x : String} (h : column_mapping x = "URL") :
    x = "link" ∨ x = "URL" := by
  unfold column_mapping at h
  split_ifs at h <;> simp_all

theorem dateLe_refl (d : Date3) : dateLe d d = true := by
  simp [dateLe]

theorem dateLe_of_dateLt {a b : Date3} (h : dateLt a b = true) : dateLe b a = false := by
  simp only [dateLt, decide_eq_true_eq] at h
  simp only [dateLe, decide_eq_false_iff_not]
  omega

theorem startsWithList_iff (p l : List Char) :
    startsWithList p l = true ↔ ∃ post, l = p ++ post := by
  induction p generalizing l with
  | nil => simp [startsWithList]
  | cons a as ih =>
    cases l with
    | nil => simp [startsWithList]
    | cons b bs =>
      simp only [startsWithList, Bool.and_eq_true, decide_eq_true_eq, ih,
        List.cons_append, List.cons.injEq]
      constructor
      · rintro ⟨rfl, post, rfl⟩
        exact ⟨post, rfl, rfl⟩
      · rintro ⟨post, rfl, rfl⟩
        exact ⟨rfl, post, rfl⟩

theorem hasSubstr_iff (p l : List Char) :
    hasSubstr p l = true ↔ ∃ pre post, l = pre ++ p ++ post := by
  induction l with
  | nil =>
    simp only [hasSubstr]
    constructor
    · intro hp
      exact ⟨[], [], by simp [List.isEmpty_iff.mp hp]⟩
    · rintro ⟨pre, post, h⟩
      have h2 : pre ++ p ++ post = [] := h.symm
      simp only [List.append_eq_nil] at h2
      simp [List.isEmpty_iff, h2.1.2]
  | cons c t ih =>
    simp only [hasSubstr, Bool.or_eq_true, startsWithList_iff, ih]
    constructor
    · rintro (⟨post, h⟩ | ⟨pre, post, rfl⟩)
      · exact ⟨[], post, by simpa using h⟩
      · exact ⟨c :: pre, post, rfl⟩
    · rintro ⟨pre, post, h⟩
      cases pre with
      | nil => exact Or.inl ⟨post, by simpa using h⟩
      | cons d pre' =>
        simp only [List.cons_append, List.cons.injEq] at h
        exact Or.inr ⟨pre', post, h.2⟩

theorem mem_uniqueAux [DecidableEq α] (a : α) (l seen : List α) :
    a ∈ uniqueAux l seen ↔ a ∈ l ∧ a ∉ seen := by
  induction l generalizing seen with
  | nil => simp [uniqueAux]
  | cons b t ih =>
    unfold uniqueAux
    by_cases hb : b ∈ seen
    · rw [if_pos hb, ih]
      simp only [List.mem_cons]
      constructor
      · rintro ⟨h1, h2⟩
        exact ⟨Or.inr h1, h2⟩
      · rintro ⟨h1 | h1, h2⟩
        · exact absurd (h1 ▸ hb) h2
        · exact ⟨h1, h2⟩
    · rw [if_neg hb]
      simp only [List.mem_cons, ih, List.mem_cons]
      constructor
      · rintro (rfl | ⟨h1, h2⟩)
        · exact ⟨Or.inl rfl, hb⟩
        · exact ⟨Or.inr h1, fun hs => h2 (Or.inr hs)⟩
      · rintro ⟨rfl | h1, h2⟩
        · exact Or.inl rfl
        · by_cases hab : a = b
          · exact Or.inl hab
          · exact Or.inr ⟨h1, fun hs => by
              rcases hs with hs | hs
              · exact hab hs
              · exact h2 hs⟩

theorem nodup_uniqueAux [DecidableEq α] (l seen : List α) :
    (uniqueAux l seen).Nodup := by
  induction l generalizing seen with
  | nil => simp [uniqueAux]
  | cons b t ih =>
    unfold uniqueAux
    by_cases hb : b ∈ seen
    · rw [if_pos hb]; exact ih seen
    · rw [if_neg hb]
      refine List.nodup_cons.mpr ⟨fun hmem => ?_, ih (b :: seen)⟩
      exact ((mem_uniqueAux b t (b :: seen)).mp hmem).2 (List.mem_cons_self b seen)

theorem length_uniqueFirstSeen [DecidableEq α] (l : List α) :
    (uniqueFirstSeen l).length = l.toFinset.card := by
  have hnd : (uniqueFirstSeen l).Nodup := nodup_uniqueAux l []
  rw [← List.toFinset_card_of_nodup hnd]
  congr 1
  ext a
  simp [uniqueFirstSeen, List.mem_toFinset, mem_uniqueAux]

theorem length_uniqueAux_le [DecidableEq α] (l seen : List α) :
    (uniqueAux l seen).length ≤ l.length := by
  induction l generalizing seen with
  | nil => simp [uniqueAux]
  | cons b t ih =>
    unfold uniqueAux
    by_cases hb : b ∈ seen
    · rw [if_pos hb]
      exact (ih seen).trans (Nat.le_succ _)
    · rw [if_neg hb]
      simpa using ih (b :: seen)

theorem mapE_error_of_mem (f : α → Except ε β) {a : α} {l : List α}
    (ha : a ∈ l) {m : ε} (hf : f a = Except.error m) :
    ∃ m', mapE f l = Except.error m' := by
  induction l with
  | nil => cases ha
  | cons b t ih =>
    rcases hfb : f b with e | v
    · exact ⟨e, by simp [mapE, hfb]⟩
    · rcases List.mem_cons.mp ha with rfl | hat
      · rw [hf] at hfb; cases hfb
      · obtain ⟨m', hm'⟩ := ih hat
        exact ⟨m', by simp [mapE, hfb, hm']⟩

theorem processFragment_shape {t u : Table} (h : processFragment t = some u) :
    u.headers = REQUIRED_COLUMNS ∧ ∀ r ∈ u.rows, r.length = 6 := by
  simp only [processFragment] at h
  split at h
  · cases h
    refine ⟨rfl, fun r hr => ?_⟩
    obtain ⟨r0, _, rfl⟩ := List.mem_map.mp hr
    simp [REQUIRED_COLUMNS]
  · cases h

/-! Claim theorems. -/

/-- C1: the Column Normalizer first strips and lowercases every column
name, then applies the fixed rename map; a fragment is accepted iff all
six canonical names are then present, in which case exactly those six
columns are emitted with row order preserved (every output row is the
projection of the input row at the same position); the original names
`" Link "`, `"LINK"` and `"link"` all normalize to `URL`. -/
theorem column_normalizer_contract (t : Table) :
    (clean_column_names t).headers = t.headers.map (fun h => column_mapping (foldName h))
    ∧ (clean_column_names t).rows = t.rows
    ∧ ((processFragment t).isSome ↔ ∀ c ∈ REQUIRED_COLUMNS, c ∈ (clean_column_names t).headers)
    ∧ (∀ u, processFragment t = some u →
        u.headers = REQUIRED_COLUMNS
        ∧ u.rows = t.rows.map
            (fun r => REQUIRED_COLUMNS.map (fun c => cellAt (clean_column_names t).headers r c)))
    ∧ column_mapping (foldName " Link ") = "URL"
    ∧ column_mapping (foldName "LINK") = "URL"
    ∧ column_mapping (foldName "link") = "URL" := by
  refine ⟨rfl, rfl, ?_, ?_, by decide, by decide, by decide⟩
  · unfold processFragment
    split
    · rename_i h
      refine iff_of_true rfl ?_
      intro c hc
      exact List.elem_iff.mp (List.all_eq_true.mp h c hc)
    · rename_i h
      refine iff_of_false (by simp) ?_
      intro hall
      exact h (List.all_eq_true.mpr fun c hc => List.elem_iff.mpr (hall c hc))
  · intro u hu
    unfold processFragment at hu
    split at hu
    · cases hu
      exact ⟨rfl, rfl⟩
    · cases hu

/-- C1 witness: the fragment `exRawGood` (headers containing `" Link "`)
is accepted. -/
theorem column_normalizer_contract_witness : (processFragment exRawGood).isSome := by
  have h := column_normalizer_contract exRawGood
  exact h.2.2.1.mpr (by decide)

/-- C2 counterexample: a table whose `Date` field holds the unparseable
string `"garbage"` makes the dashboard callback raise (the uncaught
`pd.to_datetime` error), instead of excluding the row and completing
normally as the claim states. -/
theorem unparseable_date_raises_cex :
    update_dashboard (some [some exRawBadDate]) ⟨2020, 1, 1⟩ ⟨2025, 12, 31⟩
      = Except.error (UpdateError.pandasError "Unknown datetime string format: garbage") := by
  decide

/-- C2 amended: whenever the combined table contains a row whose `Date`
field is a string that cannot be parsed as a date, the date conversion
raises and the whole dashboard update fails with that error — no row is
silently excluded. -/
theorem unparseable_date_raises (cs : List Content) (s e : Date3) (r : List Cell) (x : String)
    (hr : r ∈ (process_uploaded_files cs).rows)
    (hx : r.getD (colIdx "Date" (process_uploaded_files cs).headers) Cell.null = Cell.str x)
    (hpx : parseDate x = none) :
    ∃ m, update_dashboard (some cs) s e = Except.error (UpdateError.pandasError m) := by
  have hf : convertRowDate (colIdx "Date" (process_uploaded_files cs).headers) r
      = Except.error ("Unknown datetime string format: " ++ x) := by
    simp only [convertRowDate, hx, parseCellDate, hpx]
  obtain ⟨m', hm'⟩ := mapE_error_of_mem _ hr hf
  refine ⟨m', ?_⟩
  simp only [update_dashboard, toDatetimeTable]
  rw [hm']

/-- C2 amended witness: the single bad-date upload makes the callback
fail with a pandas error. -/
theorem unparseable_date_raises_witness :
    ∃ m, update_dashboard (some [some exRawBadDate]) ⟨2021, 1, 1⟩ ⟨2021, 12, 31⟩
      = Except.error (UpdateError.pandasError m) :=
  unparseable_date_raises [some exRawBadDate] ⟨2021, 1, 1⟩ ⟨2021, 12, 31⟩
    [Cell.str "alpha", Cell.str "siteA", Cell.str "Keyword found: alpha",
     Cell.str "200", Cell.str "10:00", Cell.str "garbage"] "garbage"
    (by decide) (by decide) (by decide)

/-- C3: a row is a positive match (counted by `found_keyword_count`)
iff its `Findings` cell is a string containing `"Keyword found"`
case-insensitively; a missing value never matches; the spec's test
vectors evaluate as stated. -/
theorem positive_match_characterization (t : Table) (s e : Date3) :
    (aggregate t s e).found_keyword_count
      = ((filterRange s e t).rows.filter
          (fun r => findingsMatch (cellAt (filterRange s e t).headers r "Findings"))).length
    ∧ (∀ c : Cell, findingsMatch c = true ↔
        ∃ x pre post, c = Cell.str x
          ∧ (pyLower x).data = pre ++ (pyLower "Keyword found").data ++ post)
    ∧ findingsMatch Cell.null = false
    ∧ findingsMatch (Cell.str "KEYWORD FOUND: xyz") = true
    ∧ findingsMatch (Cell.str "nothing") = false := by
  refine ⟨rfl, ?_, rfl, by decide, by decide⟩
  intro c
  cases c with
  | null => simp [findingsMatch]
  | date d => simp [findingsMatch]
  | str x =>
    simp only [findingsMatch, hasSubstr_iff]
    constructor
    · rintro ⟨pre, post, h⟩
      exact ⟨x, pre, post, rfl, h⟩
    · rintro ⟨x', pre, post, hx, h⟩
      cases hx
      exact ⟨pre, post, h⟩

/-- C3 witness: the marker test vector is a positive match. -/
theorem positive_match_characterization_witness :
    findingsMatch (Cell.str "KEYWORD FOUND: xyz") = true :=
  (positive_match_characterization ⟨REQUIRED_COLUMNS, []⟩ ⟨2021, 1, 1⟩ ⟨2021, 1, 31⟩).2.2.2.1

/-- C4: the date-range filter is inclusive at both bounds — a row dated
exactly `start_date` or exactly `end_date` is kept in the filtered
table, and a row dated strictly before `start_date` or strictly after
`end_date` is excluded. -/
theorem date_filter_inclusive_bounds (t : Table) (s e : Date3) (hse : dateLe s e = true)
    (r : List Cell) (d : Date3) (hd : cellAt t.headers r "Date" = Cell.date d) :
    ((d = s ∨ d = e) → r ∈ t.rows → r ∈ (filterRange s e t).rows)
    ∧ (dateLt d s = true → r ∉ (filterRange s e t).rows)
    ∧ (dateLt e d = true → r ∉ (filterRange s e t).rows) := by
  have hpred : ∀ x, x ∈ (filterRange s e t).rows
      ↔ x ∈ t.rows ∧ inRange s e (cellAt t.headers x "Date") = true := fun x => List.mem_filter
  refine ⟨?_, ?_, ?_⟩
  · rintro (rfl | rfl) hr
    · exact (hpred r).mpr ⟨hr, by simp [inRange, hd, dateLe_refl, hse]⟩
    · exact (hpred r).mpr ⟨hr, by simp [inRange, hd, dateLe_refl, hse]⟩
  · intro hlt hmem
    have h2 := ((hpred r).mp hmem).2
    rw [hd] at h2
    simp only [inRange, Bool.and_eq_true] at h2
    rw [dateLe_of_dateLt hlt] at h2
    exact Bool.false_ne_true h2.1
  · intro hlt hmem
    have h2 := ((hpred r).mp hmem).2
    rw [hd] at h2
    simp only [inRange, Bool.and_eq_true] at h2
    rw [dateLe_of_dateLt hlt] at h2
    exact Bool.false_ne_true h2.2

/-- C4 witness: a row dated exactly at the range start is kept. -/
theorem date_filter_inclusive_bounds_witness :
    exConvRow ∈ (filterRange ⟨2021, 1, 1⟩ ⟨2021, 1, 31⟩ exConvTable).rows := by
  have h := date_filter_inclusive_bounds exConvTable ⟨2021, 1, 1⟩ ⟨2021, 1, 31⟩
    (by decide) exConvRow ⟨2021, 1, 1⟩ (by decide)
  exact h.1 (Or.inl rfl) (by decide)

/-- C5: when no fragment is accepted, the callback returns all-zero
counters, empty chart series and an empty table, and does not raise. -/
theorem empty_input_zero_metrics (cs : List Content) (s e : Date3)
    (h : cs.filterMap (fun c => c.bind processFragment) = []) :
    update_dashboard (some cs) s e = Except.ok ⟨0, 0, 0, 0, [], [], [], []⟩ := by
  have hp : process_uploaded_files cs = ⟨REQUIRED_COLUMNS, []⟩ := by
    unfold process_uploaded_files
    rw [h]
  simp only [update_dashboard]
  rw [hp]
  rfl

/-- C5 witness: an empty upload list yields the all-zero result. -/
theorem empty_input_zero_metrics_witness :
    update_dashboard (some []) ⟨2021, 1, 1⟩ ⟨2021, 12, 31⟩
      = Except.ok ⟨0, 0, 0, 0, [], [], [], []⟩ :=
  empty_input_zero_metrics [] ⟨2021, 1, 1⟩ ⟨2021, 12, 31⟩ (by decide)

/-- C6: an uploaded payload that cannot be parsed as a spreadsheet is
caught per-file and dropped, contributing zero rows: removing it from
the upload list changes neither the combined table nor the dashboard
result, so the remaining fragments are still concatenated and
aggregated. -/
theorem malformed_upload_skipped (pre post : List Content) (s e : Date3) :
    process_uploaded_files (pre ++ none :: post) = process_uploaded_files (pre ++ post)
    ∧ update_dashboard (some (pre ++ none :: post)) s e
        = update_dashboard (some (pre ++ post)) s e := by
  have hfm : (pre ++ none :: post).filterMap (fun c => c.bind processFragment)
      = (pre ++ post).filterMap (fun c => c.bind processFragment) := by
    simp [List.filterMap_append, List.filterMap_cons]
  have hp : process_uploaded_files (pre ++ none :: post)
      = process_uploaded_files (pre ++ post) := by
    unfold process_uploaded_files
    rw [hfm]
  refine ⟨hp, ?_⟩
  simp only [update_dashboard]
  rw [hp]

/-- C6 witness: dropping the unparseable first payload leaves the
combined table unchanged. -/
theorem malformed_upload_skipped_witness :
    process_uploaded_files ([] ++ none :: [some exRawGood])
      = process_uploaded_files ([] ++ [some exRawGood]) :=
  (malformed_upload_skipped [] [some exRawGood] ⟨2021, 1, 1⟩ ⟨2021, 12, 31⟩).1

/-- C7: `unique_keywords` is at most `total_findings` and equals the
exact number of distinct `Keyword` values of the filtered table, so
duplicating every row leaves it unchanged while `total_findings`
doubles. -/
theorem unique_keywords_distinct_count (t : Table) (s e : Date3) :
    (aggregate t s e).unique_keywords ≤ (aggregate t s e).total_findings
    ∧ (aggregate t s e).unique_keywords
        = (getColVals (filterRange s e t) "Keyword").toFinset.card
    ∧ (aggregate ⟨t.headers, t.rows ++ t.rows⟩ s e).unique_keywords
        = (aggregate t s e).unique_keywords
    ∧ (aggregate ⟨t.headers, t.rows ++ t.rows⟩ s e).total_findings
        = 2 * (aggregate t s e).total_findings := by
  have hk : ∀ u : Table, (aggregate u s e).unique_keywords
      = (uniqueFirstSeen (getColVals (filterRange s e u) "Keyword")).length := fun _ => rfl
  have ht : ∀ u : Table, (aggregate u s e).total_findings
      = (filterRange s e u).rows.length := fun _ => rfl
  have hrows : (filterRange s e ⟨t.headers, t.rows ++ t.rows⟩).rows
      = (filterRange s e t).rows ++ (filterRange s e t).rows := by
    simp [filterRange, List.filter_append]
  have hcol : getColVals (filterRange s e ⟨t.headers, t.rows ++ t.rows⟩) "Keyword"
      = getColVals (filterRange s e t) "Keyword"
        ++ getColVals (filterRange s e t) "Keyword" := by
    simp only [getColVals, filterRange] at hrows ⊢
    rw [hrows, List.map_append]
  refine ⟨?_, ?_, ?_, ?_⟩
  · rw [hk t, ht t]
    calc (uniqueFirstSeen (getColVals (filterRange s e t) "Keyword")).length
        ≤ (getColVals (filterRange s e t) "Keyword").length := length_uniqueAux_le _ _
      _ = (filterRange s e t).rows.length := List.length_map _ _
  · rw [hk t]
    exact length_uniqueFirstSeen _
  · rw [hk t, hk ⟨t.headers, t.rows ++ t.rows⟩, length_uniqueFirstSeen,
      length_uniqueFirstSeen, hcol, List.toFinset_append, Finset.union_self]
  · rw [ht t, ht ⟨t.headers, t.rows ++ t.rows⟩, hrows, List.length_append]
    omega

/-- C7 witness: on the example converted table, `unique_keywords` is at
most `total_findings`. -/
theorem unique_keywords_distinct_count_witness :
    (aggregate exConvTable ⟨2021, 1, 1⟩ ⟨2021, 1, 31⟩).unique_keywords
      ≤ (aggregate exConvTable ⟨2021, 1, 1⟩ ⟨2021, 1, 31⟩).total_findings :=
  (unique_keywords_distinct_count exConvTable ⟨2021, 1, 1⟩ ⟨2021, 1, 31⟩).1

/-- C8: a raw table that names its URL column a casing/spacing variant
of `"url"` — and has no column whose stripped lowercase name is
`"link"` — is rejected wholesale, because only `"link"` renames to the
canonical `URL` and lowercasing can never produce `"URL"` itself. -/
theorem canonical_url_header_rejected (t : Table)
    (_hurl : ∃ h ∈ t.headers, foldName h = "url")
    (hnolink : ∀ h ∈ t.headers, foldName h ≠ "link") :
    processFragment t = none := by
  have hcond : ¬ (REQUIRED_COLUMNS.all
      (fun c => (clean_column_names t).headers.contains c) = true) := by
    intro hall
    have hURL : ("URL" : String) ∈ (clean_column_names t).headers :=
      List.elem_iff.mp (List.all_eq_true.mp hall "URL" (by decide))
    obtain ⟨h0, hh0, hmap⟩ := List.mem_map.mp hURL
    rcases column_mapping_eq_URL hmap with hl | hu
    · exact hnolink h0 hh0 hl
    · exact foldName_ne_URL h0 hu
  unfold processFragment
  rw [if_neg hcond]

/-- C8 witness: the fragment whose headers are already the canonical
six names (URL column literally `"URL"`) is rejected. -/
theorem canonical_url_header_rejected_witness : processFragment exRawCanon = none :=
  canonical_url_header_rejected exRawCanon (by decide) (by decide)

/-- C9: the combined table always has exactly the six canonical columns
in the fixed order, and every row has exactly six cells — both when
fragments are accepted and when none are. -/
theorem process_output_schema (contents : List Content) :
    (process_uploaded_files contents).headers = REQUIRED_COLUMNS
    ∧ ∀ r ∈ (process_uploaded_files contents).rows, r.length = 6 := by
  have hshape : ∀ u ∈ contents.filterMap (fun c => c.bind processFragment),
      u.headers = REQUIRED_COLUMNS ∧ ∀ r ∈ u.rows, r.length = 6 := by
    intro u hu
    obtain ⟨c, hc, hcu⟩ := List.mem_filterMap.mp hu
    cases c with
    | none => cases hcu
    | some raw => exact processFragment_shape hcu
  unfold process_uploaded_files
  rcases hm : contents.filterMap (fun c => c.bind processFragment) with _ | ⟨t, ts⟩ <;> rw [hm]
  · exact ⟨rfl, by simp⟩
  · have hmemt : t ∈ contents.filterMap (fun c => c.bind processFragment) := by
      rw [hm]
      exact List.mem_cons_self t ts
    refine ⟨(hshape t hmemt).1, ?_⟩
    intro r hr
    obtain ⟨l, hl, hrl⟩ := List.mem_flatten.mp hr
    obtain ⟨u, hu, rfl⟩ := List.mem_map.mp hl
    have hmemu : u ∈ contents.filterMap (fun c => c.bind processFragment) := by
      rw [hm]
      exact hu
    exact (hshape u hmemu).2 r hrl

/-- C9 witness: the combined table of one accepted upload has the six
canonical column names. -/
theorem process_output_schema_witness :
    (process_uploaded_files [some exRawGood]).headers = REQUIRED_COLUMNS :=
  (process_output_schema [some exRawGood]).1

/-- C10: when no upload event has ever occurred (upload contents are
`None`), the callback aborts with `PreventUpdate` and produces no
outputs at all. -/
theorem no_upload_prevents_update (s e : Date3) :
    update_dashboard none s e = Except.error UpdateError.preventUpdate := rfl

/-- C10 witness: `PreventUpdate` at a concrete date range. -/
theorem no_upload_prevents_update_witness :
    update_dashboard none ⟨2021, 1, 1⟩ ⟨2021, 12, 31⟩
      = Except.error UpdateError.preventUpdate :=
  no_upload_prevents_update ⟨2021, 1, 1⟩ ⟨2021, 12, 31⟩
